import Mathlib

/-!
Shallow embedding of the SCP upload tool `src/upload_to_gaio_inputs.py`
(together with the `Settings` record of `config/config.py`), and theorems
settling the specification claims about its upload pipeline.

Modelling conventions:
* file contents are byte lists (`List Nat`), the SHA-256 compression function
  is an abstract parameter `H : List Nat -> String` applied to the bytes
  absorbed by the chunked read loop (incremental hashing absorbs exactly the
  concatenation of the chunks fed to `update`);
* external processes (`ssh`, `scp`) are modelled by their observable
  interface: a structured command plus an exit-code oracle, with the list of
  actually-executed commands recorded as an effect;
* the local filesystem is a `RunState`: the files under the local directory,
  the sent (archive) directory with its entries, the executed remote
  commands, and the append-only log;
* per-file environmental failures (an `IOError` during the chunked read, an
  `OSError` from `unlink` or `shutil.move`) are supplied by a `FileOracle`,
  `none` meaning the operation succeeds.
-/

namespace UploadScp

/-- A byte of file content. -/
abbrev Byte := Nat

/-- Model of `config.config.Settings`: resolved configuration (connection target and
directory layout).  Values come from the environment; they are opaque here. -/
structure Settings where
  host : String
  port : Nat
  user : String
  key_path : String
  remote_dir : String
  local_files_dir : String
  local_sent_dir : String
  local_logs_dir : String
  pattern : String
deriving Repr

/-- One candidate local file: its subdirectory components below the local
directory (`[]` = top level), its stem and suffix (Python `Path.stem` /
`Path.suffix`, so the base name is `stem ++ suffix`), and its byte content. -/
structure LocalFile where
  dirs : List String
  stem : String
  suffix : String
  content : List Byte
deriving DecidableEq, Repr

/-- Model of `f.name` of `pathlib`: the base name, stem plus suffix. -/
def LocalFile.name (f : LocalFile) : String := f.stem ++ f.suffix

/-- Model of `str(f)`: the file's path relative to the local directory. -/
def LocalFile.path (f : LocalFile) : String :=
  String.intercalate "/" (f.dirs ++ [f.name])

/-- The `while` read loop of `sha256_file`: read up to `chunk_size` bytes,
stop on an empty read, otherwise feed the chunk to the hash and continue.
The loop is written with explicit fuel to make it structurally recursive;
`fuel = content.length` always suffices (each executed iteration consumes at
least one byte), which `readChunksFuel_flatten` below certifies. -/
def readChunksFuel (chunk_size : Nat) : Nat → List Byte → List (List Byte)
  | 0, _ => []
  | fuel + 1, content =>
    let b := content.take chunk_size
    if b.isEmpty then [] else b :: readChunksFuel chunk_size fuel (content.drop chunk_size)

/-- Model of `sha256_file(path, chunk_size)`: stream the file's bytes in chunks of
`chunk_size`, feeding each chunk to the incremental hash; the digest is the
hash `H` of all absorbed bytes.  The script always calls it with the default
`chunk_size = 1024 * 1024`. -/
def sha256_file (H : List Byte → String) (content : List Byte) (chunk_size : Nat) : String :=
  H (readChunksFuel chunk_size content.length content).flatten

/-- The remote destination computation of the per-file loop:
`remote_path = str(Path(s.remote_dir) / f.name)`. -/
def remote_path (remote_dir : String) (name : String) : String :=
  remote_dir ++ "/" ++ name

/-- A remote process invocation: the `ssh mkdir -p` of `ensure_remote_dir`,
the `ssh test -f` of `remote_file_exists`, or the `scp` of `scp_upload`.
Connection parameters (host, port, user, key) are fixed per run and omitted. -/
inductive Cmd
  | sshMkdir (remoteDir : String)
  | sshTestFile (remotePath : String)
  | scpFile (localPath : String) (remotePath : String)
deriving DecidableEq, Repr

/-- Result of `runCommand`: the exit code observed by the caller, and the list
of commands actually handed to `subprocess.call` (empty under dry-run). -/
structure CmdResult where
  exitCode : Nat
  executed : List Cmd
deriving DecidableEq, Repr

/-- Model of the script's `run_cmd(cmd, dry_run)` (renamed, `run` + `cmd` is a
Lean keyword): print the command (not modelled); under dry-run
return `0` without executing, otherwise execute and return the exit status
given by the oracle `exec`. -/
def runCommand (exec : Cmd → Nat) (cmd : Cmd) (dry_run : Bool) : CmdResult :=
  if dry_run then ⟨0, []⟩ else ⟨exec cmd, [cmd]⟩

/-- Model of `ensure_remote_dir`: `mkdir -p` on the remote; a non-zero exit raises
`RuntimeError` (modelled as `Except.error`), which `main` never catches. -/
def ensure_remote_dir (exec : Cmd → Nat) (s : Settings) (dry_run : Bool) :
    Except String Unit × List Cmd :=
  let r := runCommand exec (Cmd.sshMkdir s.remote_dir) dry_run
  if r.exitCode ≠ 0 then
    (Except.error ("Falha ao criar/verificar pasta remota (exit=" ++ toString r.exitCode ++ ")."),
     r.executed)
  else (Except.ok (), r.executed)

/-- Model of `remote_file_exists`: under dry-run, report `false` without running any
command; otherwise run `test -f` remotely and report whether the exit status
is zero.  Any non-zero exit status — `1` from `test`, or a failure of the
probe command itself such as ssh's `255` — yields `false`. -/
def remote_file_exists (exec : Cmd → Nat) (rp : String) (dry_run : Bool) :
    Bool × List Cmd :=
  if dry_run then (false, [])
  else
    let r := runCommand exec (Cmd.sshTestFile rp) false
    (r.exitCode == 0, r.executed)

/-- Model of `scp_upload`: run `scp`; a non-zero exit raises `RuntimeError` (modelled
as `Except.error`), caught by the per-file handler in `main`. -/
def scp_upload (exec : Cmd → Nat) (local_file : String) (rp : String) (dry_run : Bool) :
    Except String Unit × List Cmd :=
  let r := runCommand exec (Cmd.scpFile local_file rp) dry_run
  if r.exitCode ≠ 0 then
    (Except.error ("SCP falhou (exit=" ++ toString r.exitCode ++ ")."), r.executed)
  else (Except.ok (), r.executed)

/-- Model of `iter_files(base_dir, pattern, recursive)`: the glob match itself is an
abstract predicate `globMatch`; non-recursive `glob` only sees top-level
entries, `rglob` also descends into subdirectories.  Only files qualify
(directories are not modelled as `LocalFile`s). -/
def iter_files (globMatch : LocalFile → Bool) (recursive : Bool)
    (files : List LocalFile) : List LocalFile :=
  if recursive then files.filter globMatch
  else files.filter (fun f => f.dirs.isEmpty && globMatch f)

/-- Terminal status of one file's log record. -/
inductive Status
  | uploaded
  | skipped_remote_exists
  | failed
deriving DecidableEq, Repr

/-- The per-file log entry (`event: "file"`); the `ts` field is not
modelled. -/
structure FileRecord where
  local_path : String
  remote_path : String
  size_bytes : Nat
  sha256 : Option String
  status : Status
  error : Option String
deriving DecidableEq, Repr

/-- A file in the sent (archive) directory: its name and content. -/
structure SentEntry where
  name : String
  content : List Byte
deriving DecidableEq, Repr

/-- One line of the JSONL log: a per-file event, the `no_files` run summary
(which carries no counters), or the full run summary.  `ts`, directory and
log-file echo fields are not modelled. -/
inductive LogRecord
  | fileEvent (r : FileRecord)
  | runEndNoFiles (pattern : String)
  | runEnd (status : String) (recursive overwrite keep_local delete_after dry_run : Bool)
      (count_total count_uploaded count_skipped count_failed : Nat)
deriving DecidableEq, Repr

/-- The observable world state threaded through a run: local files, the sent
directory (whether it exists, and its entries), the remote commands actually
executed, and the append-only log. -/
structure RunState where
  localFiles : List LocalFile
  sentDirExists : Bool
  sentFiles : List SentEntry
  executedCmds : List Cmd
  log : List LogRecord
deriving DecidableEq, Repr

/-- The parsed command-line flags relevant to the pipeline. -/
structure Args where
  pattern : String
  recursive : Bool
  overwrite : Bool
  keep_local : Bool
  delete_after : Bool
  dry_run : Bool
deriving Repr

/-- Environmental outcomes for one file's processing: a mid-read `IOError`
from `sha256_file` (`some` message) or a clean read, the exit codes the
probe and `scp` commands would return if executed, `OSError`s from `unlink`
and `shutil.move`, and the `datetime.now()` timestamp used for the archive
rename suffix. -/
structure FileOracle where
  digestErr : Option String
  probeExit : Nat
  scpExit : Nat
  unlinkErr : Option String
  moveErr : Option String
  now : String
deriving Repr

/-- Effect of `shutil.move(f, sent_dir / target)`: an existing entry under the target
name is silently replaced. -/
def moveInto (files : List SentEntry) (target : String) (content : List Byte) :
    List SentEntry :=
  files.filter (fun e => e.name != target) ++ [⟨target, content⟩]

/-- The body of `main`'s `for f in files` loop for one file: build the log
entry, then inside `try`: digest, existence probe (skip when the file is
already remote and `--overwrite` is absent), `scp` upload, and the
post-action (`delete_after` first, else archive move unless `keep_local`).
Any raised exception is caught and recorded as `failed` with its message.
Returns the updated state and the file's terminal log record. -/
def fileStep (H : List Byte → String) (s : Settings) (args : Args) (o : FileOracle)
    (st : RunState) (f : LocalFile) : RunState × FileRecord :=
  let rp := remote_path s.remote_dir f.name
  let mkRec : Option String → Status → Option String → FileRecord := fun sha stt err =>
    { local_path := f.path, remote_path := rp, size_bytes := f.content.length,
      sha256 := sha, status := stt, error := err }
  match o.digestErr with
  | some e => (st, mkRec none Status.failed (some e))
  | none =>
    let dg := sha256_file H f.content (1024 * 1024)
    let pr := remote_file_exists (fun _ => o.probeExit) rp args.dry_run
    let st₁ := { st with executedCmds := st.executedCmds ++ pr.2 }
    if !args.overwrite && pr.1 then
      (st₁, mkRec (some dg) Status.skipped_remote_exists none)
    else
      let up := scp_upload (fun _ => o.scpExit) f.path rp args.dry_run
      let st₂ := { st₁ with executedCmds := st₁.executedCmds ++ up.2 }
      match up.1 with
      | Except.error e => (st₂, mkRec (some dg) Status.failed (some e))
      | Except.ok _ =>
        if args.delete_after then
          if args.dry_run then (st₂, mkRec (some dg) Status.uploaded none)
          else
            match o.unlinkErr with
            | some e => (st₂, mkRec (some dg) Status.failed (some e))
            | none =>
              ({ st₂ with localFiles := st₂.localFiles.erase f },
               mkRec (some dg) Status.uploaded none)
        else if !args.keep_local then
          let st₃ := { st₂ with sentDirExists := true }
          if args.dry_run then (st₃, mkRec (some dg) Status.uploaded none)
          else
            let target := if st₃.sentFiles.any (fun x => x.name == f.name)
                          then f.stem ++ "_" ++ o.now ++ f.suffix
                          else f.name
            match o.moveErr with
            | some e => (st₃, mkRec (some dg) Status.failed (some e))
            | none =>
              ({ st₃ with localFiles := st₃.localFiles.erase f,
                          sentFiles := moveInto st₃.sentFiles target f.content },
               mkRec (some dg) Status.uploaded none)
        else (st₂, mkRec (some dg) Status.uploaded none)

/-- The `for f in files` loop of `main`: process each file with `fileStep`,
append its record to the log, and bump exactly one of the `ok` / `skipped`
/ `fail` counters according to the terminal status.  Returns the final
state and the three counters. -/
def runLoop (H : List Byte → String) (s : Settings) (args : Args)
    (oracle : LocalFile → FileOracle) :
    List LocalFile → RunState → Nat → Nat → Nat → RunState × Nat × Nat × Nat
  | [], st, ok, sk, fl => (st, ok, sk, fl)
  | f :: rest, st, ok, sk, fl =>
    let r := fileStep H s args (oracle f) st f
    let st₂ := { r.1 with log := r.1.log ++ [LogRecord.fileEvent r.2] }
    match r.2.status with
    | Status.uploaded => runLoop H s args oracle rest st₂ (ok + 1) sk fl
    | Status.skipped_remote_exists => runLoop H s args oracle rest st₂ ok (sk + 1) fl
    | Status.failed => runLoop H s args oracle rest st₂ ok sk (fl + 1)

/-- The process-level outcome of `main`: a normal return code, or an
uncaught exception (`ensure_remote_dir` failure) aborting the run. -/
inductive RunResult
  | fatal (msg : String)
  | exit (code : Nat)
deriving DecidableEq, Repr

/-- Model of `main`: validate the local directory (exit 2 when invalid), ensure the
remote directory (fatal on failure), discover files, handle the empty case
with a `no_files` summary and exit 0, otherwise run the per-file loop,
append the run summary, and exit 0 exactly when no file failed.
`localDirOk` stands for `local_dir.exists() and local_dir.is_dir()`;
`globMatch` is the glob predicate of `iter_files`; `ensureExit` is the exit
status the remote `mkdir -p` would return if executed. -/
def main (H : List Byte → String) (s : Settings) (args : Args)
    (localDirOk : Bool) (ensureExit : Nat) (globMatch : LocalFile → Bool)
    (oracle : LocalFile → FileOracle) (st : RunState) : RunResult × RunState :=
  if !localDirOk then (RunResult.exit 2, st)
  else
    let er := ensure_remote_dir (fun _ => ensureExit) s args.dry_run
    let st₁ := { st with executedCmds := st.executedCmds ++ er.2 }
    match er.1 with
    | Except.error e => (RunResult.fatal e, st₁)
    | Except.ok _ =>
      let files := iter_files globMatch args.recursive st₁.localFiles
      if files.isEmpty then
        (RunResult.exit 0,
         { st₁ with log := st₁.log ++ [LogRecord.runEndNoFiles args.pattern] })
      else
        let r := runLoop H s args oracle files st₁ 0 0 0
        let summary := LogRecord.runEnd
          (if r.2.2.2 == 0 then "ok" else "partial_fail")
          args.recursive args.overwrite args.keep_local args.delete_after args.dry_run
          files.length r.2.1 r.2.2.1 r.2.2.2
        (RunResult.exit (if r.2.2.2 == 0 then 0 else 1),
         { r.1 with log := r.1.log ++ [summary] })

/-! ## Helper lemmas -/

/-- With a positive chunk size, the chunked read loop (run with enough fuel,
as `sha256_file` does) absorbs exactly the file's bytes, in order. -/
theorem readChunksFuel_flatten (c : Nat) (hc : 0 < c) :
    ∀ (fuel : Nat) (content : List Byte), content.length ≤ fuel →
      (readChunksFuel c fuel content).flatten = content := by
  intro fuel
  induction fuel with
  | zero =>
    intro content h
    have : content = [] := List.length_eq_zero.mp (Nat.le_zero.mp h)
    subst this
    simp [readChunksFuel]
  | succ n ih =>
    intro content h
    by_cases hcon : content = []
    · subst hcon
      simp [readChunksFuel]
    · have htake : ¬ (content.take c).isEmpty := by
        simp only [List.isEmpty_iff, List.take_eq_nil_iff]
        push_neg
        refine ⟨?_, hcon⟩
        omega
      simp only [readChunksFuel]
      rw [if_neg htake]
      have hdrop : (content.drop c).length ≤ n := by
        have hlen : 0 < content.length := List.length_pos.mpr hcon
        simp only [List.length_drop]
        omega
      simp only [List.flatten_cons, ih (content.drop c) hdrop, List.take_append_drop]

/-- Every chunk the read loop produces has at most `chunk_size` bytes. -/
theorem readChunksFuel_chunk_le (c : Nat) :
    ∀ (fuel : Nat) (content : List Byte) (chunk : List Byte),
      chunk ∈ readChunksFuel c fuel content → chunk.length ≤ c := by
  intro fuel
  induction fuel with
  | zero => intro content chunk h; simp [readChunksFuel] at h
  | succ n ih =>
    intro content chunk h
    simp only [readChunksFuel] at h
    by_cases he : (content.take c).isEmpty
    · rw [if_pos he] at h; simp at h
    · rw [if_neg he] at h
      rcases List.mem_cons.mp h with h1 | h2
      · subst h1
        simp [Nat.min_le_left]
      · exact ih (content.drop c) chunk h2

/-- The step function `fileStep` never touches the log; the loop appends the records. -/
theorem fileStep_log (H : List Byte → String) (s : Settings) (args : Args)
    (o : FileOracle) (st : RunState) (f : LocalFile) :
    (fileStep H s args o st f).1.log = st.log := by
  unfold fileStep
  cases o.digestErr
  all_goals simp only []
  all_goals repeat' split
  all_goals rfl

/-- The loop appends exactly one log record per discovered file: no file's
outcome, failure included, stops the iteration. -/
theorem runLoop_log_length (H : List Byte → String) (s : Settings) (args : Args)
    (oracle : LocalFile → FileOracle) (files : List LocalFile) (st : RunState)
    (ok sk fl : Nat) :
    (runLoop H s args oracle files st ok sk fl).1.log.length
      = st.log.length + files.length := by
  induction files generalizing st ok sk fl with
  | nil => simp [runLoop]
  | cons f rest ih =>
    simp only [runLoop]
    split
    all_goals rw [ih]
    all_goals simp [fileStep_log]
    all_goals omega

/-- Under dry-run, a file is never skipped: the probe reports `false`, so
the skip branch is unreachable and the terminal status is `uploaded` or
`failed`. -/
theorem fileStep_dry_not_skipped (H : List Byte → String) (s : Settings) (args : Args)
    (o : FileOracle) (st : RunState) (f : LocalFile) (hdry : args.dry_run = true) :
    (fileStep H s args o st f).2.status ≠ Status.skipped_remote_exists := by
  unfold fileStep
  cases o.digestErr
  all_goals simp only [remote_file_exists, scp_upload, runCommand, hdry, if_true,
    Bool.and_false, Bool.false_eq_true, if_false]
  all_goals repeat' split
  all_goals simp

/-- Under dry-run, `fileStep` leaves the local files, the sent entries and
the executed-command list unchanged (only the log record is produced and
the sent directory may be created). -/
theorem fileStep_dry_state (H : List Byte → String) (s : Settings) (args : Args)
    (o : FileOracle) (st : RunState) (f : LocalFile) (hdry : args.dry_run = true) :
    (fileStep H s args o st f).1.localFiles = st.localFiles
    ∧ (fileStep H s args o st f).1.sentFiles = st.sentFiles
    ∧ (fileStep H s args o st f).1.executedCmds = st.executedCmds := by
  unfold fileStep
  cases o.digestErr
  all_goals simp only [remote_file_exists, scp_upload, runCommand, hdry, if_true,
    Bool.and_false, Bool.false_eq_true, if_false]
  all_goals repeat' split
  all_goals simp

/-- Under dry-run, the whole loop leaves the local files, the sent entries
and the executed-command list unchanged. -/
theorem runLoop_dry_state (H : List Byte → String) (s : Settings) (args : Args)
    (oracle : LocalFile → FileOracle) (files : List LocalFile) (st : RunState)
    (ok sk fl : Nat) (hdry : args.dry_run = true) :
    (runLoop H s args oracle files st ok sk fl).1.localFiles = st.localFiles
    ∧ (runLoop H s args oracle files st ok sk fl).1.sentFiles = st.sentFiles
    ∧ (runLoop H s args oracle files st ok sk fl).1.executedCmds = st.executedCmds := by
  induction files generalizing st ok sk fl with
  | nil => exact ⟨rfl, rfl, rfl⟩
  | cons f rest ih =>
    have hstep := fileStep_dry_state H s args (oracle f) st f hdry
    simp only [runLoop]
    split
    all_goals {
      refine ⟨?_, ?_, ?_⟩
      · rw [(ih _ _ _ _).1]; exact hstep.1
      · rw [(ih _ _ _ _).2.1]; exact hstep.2.1
      · rw [(ih _ _ _ _).2.2]; exact hstep.2.2
    }

/-- Every record the loop appends to an empty starting log is a file event
whose status is not `skipped_remote_exists`, when run under dry-run. -/
theorem runLoop_dry_no_skip (H : List Byte → String) (s : Settings) (args : Args)
    (oracle : LocalFile → FileOracle) (files : List LocalFile) (st : RunState)
    (ok sk fl : Nat) (hdry : args.dry_run = true) :
    ∀ r ∈ (runLoop H s args oracle files st ok sk fl).1.log,
      r ∈ st.log ∨ ∀ fr, r = LogRecord.fileEvent fr →
        fr.status ≠ Status.skipped_remote_exists := by
  induction files generalizing st ok sk fl with
  | nil => intro r hr; exact Or.inl hr
  | cons f rest ih =>
    intro r hr
    simp only [runLoop] at hr
    have hns := fileStep_dry_not_skipped H s args (oracle f) st f hdry
    split at hr
    all_goals {
      rcases ih _ _ _ _ r hr with hin | hprop
      · simp only [fileStep_log, List.mem_append, List.mem_singleton] at hin
        rcases hin with hin | hin
        · exact Or.inl hin
        · refine Or.inr ?_
          intro fr hfr
          subst hin
          injection hfr with hfr
          rw [← hfr]
          exact hns
      · exact Or.inr hprop
    }

/-- Each processed file bumps exactly one of the three counters, so their
sum grows by exactly the number of processed files. -/
theorem runLoop_counts (H : List Byte → String) (s : Settings) (args : Args)
    (oracle : LocalFile → FileOracle) (files : List LocalFile) (st : RunState)
    (ok sk fl : Nat) :
    (runLoop H s args oracle files st ok sk fl).2.1
      + (runLoop H s args oracle files st ok sk fl).2.2.1
      + (runLoop H s args oracle files st ok sk fl).2.2.2
      = ok + sk + fl + files.length := by
  induction files generalizing st ok sk fl with
  | nil => simp [runLoop]
  | cons f rest ih =>
    simp only [runLoop]
    split
    all_goals rw [ih]
    all_goals simp
    all_goals omega

/-! ## Claim theorems -/

/-- C1: every per-file failure is isolated.  The loop logs exactly one
record per discovered file (so no file's failure aborts the run), a `failed`
record always carries an error message, and each failing stage of the
per-file sequence — digest read, transfer, local delete, local move — is
caught and recorded as `failed` with that exception's message.  (The
existence probe cannot raise in this model: `subprocess.call` surfaces
probe failures as non-zero exit statuses, which `remote_file_exists` maps
to `false`.) -/
theorem per_file_errors_isolated
    (H : List Byte → String) (s : Settings) (args : Args)
    (oracle : LocalFile → FileOracle) (files : List LocalFile)
    (st : RunState) (ok sk fl : Nat) :
    (runLoop H s args oracle files st ok sk fl).1.log.length
        = st.log.length + files.length
    ∧ (∀ (o : FileOracle) (st₁ : RunState) (f : LocalFile),
        (fileStep H s args o st₁ f).2.status = Status.failed →
          ((fileStep H s args o st₁ f).2.error).isSome = true)
    ∧ (∀ (o : FileOracle) (st₁ : RunState) (f : LocalFile) (e : String),
        o.digestErr = some e →
          (fileStep H s args o st₁ f).2.status = Status.failed
          ∧ (fileStep H s args o st₁ f).2.error = some e)
    ∧ (∀ (o : FileOracle) (st₁ : RunState) (f : LocalFile),
        o.digestErr = none → args.dry_run = false → o.scpExit ≠ 0 →
        (args.overwrite = true ∨ o.probeExit ≠ 0) →
          (fileStep H s args o st₁ f).2.status = Status.failed
          ∧ (fileStep H s args o st₁ f).2.error
              = some ("SCP falhou (exit=" ++ toString o.scpExit ++ ")."))
    ∧ (∀ (o : FileOracle) (st₁ : RunState) (f : LocalFile) (e : String),
        o.digestErr = none → args.dry_run = false → o.scpExit = 0 →
        (args.overwrite = true ∨ o.probeExit ≠ 0) →
        args.delete_after = true → o.unlinkErr = some e →
          (fileStep H s args o st₁ f).2.status = Status.failed
          ∧ (fileStep H s args o st₁ f).2.error = some e)
    ∧ (∀ (o : FileOracle) (st₁ : RunState) (f : LocalFile) (e : String),
        o.digestErr = none → args.dry_run = false → o.scpExit = 0 →
        (args.overwrite = true ∨ o.probeExit ≠ 0) →
        args.delete_after = false → args.keep_local = false → o.moveErr = some e →
          (fileStep H s args o st₁ f).2.status = Status.failed
          ∧ (fileStep H s args o st₁ f).2.error = some e) := by
  refine ⟨runLoop_log_length H s args oracle files st ok sk fl, ?_, ?_, ?_, ?_, ?_⟩
  · intro o st₁ f
    unfold fileStep
    cases o.digestErr
    all_goals simp only []
    all_goals repeat' split
    all_goals intro h
    all_goals first
      | rfl
      | (exfalso; exact absurd h (by simp))
  · intro o st₁ f e hdg
    simp only [fileStep, hdg]
    constructor
    · trivial
    · trivial
  · intro o st₁ f hdg hdry hscp hskip
    have hcond : (!args.overwrite
        && (remote_file_exists (fun _ => o.probeExit)
              (remote_path s.remote_dir f.name) args.dry_run).1) = false := by
      rcases hskip with how | hpe
      · simp [how]
      · simp [remote_file_exists, runCommand, hdry, hpe]
    simp only [fileStep, hdg, hcond, Bool.false_eq_true, if_false]
    simp only [scp_upload, runCommand, hdry, Bool.false_eq_true, if_false]
    rw [if_pos hscp]
    constructor
    · trivial
    · trivial
  · intro o st₁ f e hdg hdry hscp hskip hda hul
    have hcond : (!args.overwrite
        && (remote_file_exists (fun _ => o.probeExit)
              (remote_path s.remote_dir f.name) args.dry_run).1) = false := by
      rcases hskip with how | hpe
      · simp [how]
      · simp [remote_file_exists, runCommand, hdry, hpe]
    simp only [fileStep, hdg, hcond, Bool.false_eq_true, if_false]
    simp only [scp_upload, runCommand, hdry, Bool.false_eq_true, if_false]
    rw [if_neg (by simp [hscp])]
    simp only [hda, hdry, Bool.false_eq_true, if_false, if_true, hul]
    constructor
    · trivial
    · trivial
  · intro o st₁ f e hdg hdry hscp hskip hda hkl hmv
    have hcond : (!args.overwrite
        && (remote_file_exists (fun _ => o.probeExit)
              (remote_path s.remote_dir f.name) args.dry_run).1) = false := by
      rcases hskip with how | hpe
      · simp [how]
      · simp [remote_file_exists, runCommand, hdry, hpe]
    simp only [fileStep, hdg, hcond, Bool.false_eq_true, if_false]
    simp only [scp_upload, runCommand, hdry, Bool.false_eq_true, if_false]
    rw [if_neg (by simp [hscp])]
    simp only [hda, hkl, hdry, Bool.false_eq_true, Bool.not_false, if_false, if_true, hmv]
    constructor
    · trivial
    · trivial

/-- Witness for C1: a three-file batch in which the first file's read
raises, the second file's `scp` exits non-zero, and the third succeeds;
all three are logged, and the failures carry their messages. -/
theorem per_file_errors_isolated_witness :
    ((runLoop (fun bs => toString bs.length)
        ⟨"h", 22, "u", "k", "/inputs", "files", "sent", "logs", "*"⟩
        ⟨"*", false, false, false, false, false⟩
        (fun f => if f.stem = "a" then ⟨some "read error", 1, 0, none, none, "t"⟩
                  else if f.stem = "b" then ⟨none, 1, 5, none, none, "t"⟩
                  else ⟨none, 1, 0, none, none, "t"⟩)
        [⟨[], "a", ".csv", [1]⟩, ⟨[], "b", ".csv", [2]⟩, ⟨[], "c", ".csv", [3]⟩]
        ⟨[⟨[], "a", ".csv", [1]⟩, ⟨[], "b", ".csv", [2]⟩, ⟨[], "c", ".csv", [3]⟩],
         true, [], [], []⟩ 0 0 0).1.log.length = 3)
    ∧ (fileStep (fun bs => toString bs.length)
        ⟨"h", 22, "u", "k", "/inputs", "files", "sent", "logs", "*"⟩
        ⟨"*", false, false, false, false, false⟩
        ⟨some "read error", 1, 0, none, none, "t"⟩
        ⟨[], true, [], [], []⟩ ⟨[], "a", ".csv", [1]⟩).2.status = Status.failed := by
  have h := per_file_errors_isolated (fun bs => toString bs.length)
    ⟨"h", 22, "u", "k", "/inputs", "files", "sent", "logs", "*"⟩
    ⟨"*", false, false, false, false, false⟩
    (fun f => if f.stem = "a" then ⟨some "read error", 1, 0, none, none, "t"⟩
              else if f.stem = "b" then ⟨none, 1, 5, none, none, "t"⟩
              else ⟨none, 1, 0, none, none, "t"⟩)
    [⟨[], "a", ".csv", [1]⟩, ⟨[], "b", ".csv", [2]⟩, ⟨[], "c", ".csv", [3]⟩]
    ⟨[⟨[], "a", ".csv", [1]⟩, ⟨[], "b", ".csv", [2]⟩, ⟨[], "c", ".csv", [3]⟩],
     true, [], [], []⟩ 0 0 0
  refine ⟨by rw [h.1]; rfl, ?_⟩
  exact (h.2.2.1 ⟨some "read error", 1, 0, none, none, "t"⟩
    ⟨[], true, [], [], []⟩ ⟨[], "a", ".csv", [1]⟩ "read error" rfl).1

/-- C7: when both `--delete-after` and `--keep-local` are set, a
successfully uploaded file is deleted: `delete_after` is tested first, so it
takes precedence over `keep_local` and over the archive move — the file
leaves the local directory, and the sent directory and its entries are
untouched. -/
theorem delete_after_takes_precedence
    (H : List Byte → String) (s : Settings) (args : Args) (o : FileOracle)
    (st : RunState) (f : LocalFile)
    (hda : args.delete_after = true) (hkl : args.keep_local = true)
    (hdry : args.dry_run = false) (hdg : o.digestErr = none)
    (hscp : o.scpExit = 0) (hul : o.unlinkErr = none)
    (hskip : args.overwrite = true ∨ o.probeExit ≠ 0) :
    (fileStep H s args o st f).2.status = Status.uploaded
    ∧ (fileStep H s args o st f).1.localFiles = st.localFiles.erase f
    ∧ (fileStep H s args o st f).1.sentFiles = st.sentFiles
    ∧ (fileStep H s args o st f).1.sentDirExists = st.sentDirExists := by
  have hcond : (!args.overwrite
      && (remote_file_exists (fun _ => o.probeExit)
            (remote_path s.remote_dir f.name) args.dry_run).1) = false := by
    rcases hskip with how | hpe
    · simp [how]
    · simp [remote_file_exists, runCommand, hdry, hpe]
  simp only [fileStep, hdg, hcond, Bool.false_eq_true, if_false]
  simp only [scp_upload, runCommand, hdry, Bool.false_eq_true, if_false]
  rw [if_neg (by simp [hscp])]
  simp only [hda, hdry, Bool.false_eq_true, if_false, if_true, hul]
  refine ⟨?_, ?_, ?_, ?_⟩ <;> trivial

/-- Witness for C7 at a concrete file with both flags set. -/
theorem delete_after_takes_precedence_witness :
    (fileStep (fun bs => toString bs.length)
        ⟨"h", 22, "u", "k", "/inputs", "files", "sent", "logs", "*"⟩
        ⟨"*", false, false, true, true, false⟩
        ⟨none, 1, 0, none, none, "t"⟩
        ⟨[⟨[], "a", ".csv", [1]⟩], true, [⟨"a.csv", [9]⟩], [], []⟩
        ⟨[], "a", ".csv", [1]⟩).2.status = Status.uploaded
    ∧ (fileStep (fun bs => toString bs.length)
        ⟨"h", 22, "u", "k", "/inputs", "files", "sent", "logs", "*"⟩
        ⟨"*", false, false, true, true, false⟩
        ⟨none, 1, 0, none, none, "t"⟩
        ⟨[⟨[], "a", ".csv", [1]⟩], true, [⟨"a.csv", [9]⟩], [], []⟩
        ⟨[], "a", ".csv", [1]⟩).1.localFiles = []
    ∧ (fileStep (fun bs => toString bs.length)
        ⟨"h", 22, "u", "k", "/inputs", "files", "sent", "logs", "*"⟩
        ⟨"*", false, false, true, true, false⟩
        ⟨none, 1, 0, none, none, "t"⟩
        ⟨[⟨[], "a", ".csv", [1]⟩], true, [⟨"a.csv", [9]⟩], [], []⟩
        ⟨[], "a", ".csv", [1]⟩).1.sentFiles = [⟨"a.csv", [9]⟩] := by
  have h := delete_after_takes_precedence (fun bs => toString bs.length)
    ⟨"h", 22, "u", "k", "/inputs", "files", "sent", "logs", "*"⟩
    ⟨"*", false, false, true, true, false⟩
    ⟨none, 1, 0, none, none, "t"⟩
    ⟨[⟨[], "a", ".csv", [1]⟩], true, [⟨"a.csv", [9]⟩], [], []⟩
    ⟨[], "a", ".csv", [1]⟩
    rfl rfl rfl rfl rfl rfl (Or.inr (by decide))
  refine ⟨h.1, ?_, h.2.2.1⟩
  rw [h.2.1]
  rfl

/-- C3: archive collision safety.  When a successfully uploaded file is
moved into the sent directory (`delete_after=false`, `keep_local=false`) and
an entry with the same base name is already archived there, the incoming
file is stored under `stem_timestamp + suffix` instead, and the previously
archived entry survives unchanged. -/
theorem archive_move_no_overwrite
    (H : List Byte → String) (s : Settings) (args : Args) (o : FileOracle)
    (st : RunState) (f : LocalFile) (e : SentEntry)
    (hda : args.delete_after = false) (hkl : args.keep_local = false)
    (hdry : args.dry_run = false) (hdg : o.digestErr = none)
    (hscp : o.scpExit = 0) (hmv : o.moveErr = none)
    (hskip : args.overwrite = true ∨ o.probeExit ≠ 0)
    (hmem : e ∈ st.sentFiles) (hname : e.name = f.name) :
    (fileStep H s args o st f).2.status = Status.uploaded
    ∧ e ∈ (fileStep H s args o st f).1.sentFiles
    ∧ (⟨f.stem ++ "_" ++ o.now ++ f.suffix, f.content⟩ : SentEntry)
        ∈ (fileStep H s args o st f).1.sentFiles := by
  have hcond : (!args.overwrite
      && (remote_file_exists (fun _ => o.probeExit)
            (remote_path s.remote_dir f.name) args.dry_run).1) = false := by
    rcases hskip with how | hpe
    · simp [how]
    · simp [remote_file_exists, runCommand, hdry, hpe]
  have hany : st.sentFiles.any (fun x => x.name == f.name) = true :=
    List.any_eq_true.mpr ⟨e, hmem, by simp [hname]⟩
  have hne : e.name ≠ f.stem ++ "_" ++ o.now ++ f.suffix := by
    rw [hname]
    intro hcontra
    have hlen := congrArg String.length hcontra
    simp only [LocalFile.name, String.length_append] at hlen
    have h1 : ("_" : String).length = 1 := by decide
    omega
  simp only [fileStep, hdg, hcond, Bool.false_eq_true, if_false]
  simp only [scp_upload, runCommand, hdry, Bool.false_eq_true, if_false]
  rw [if_neg (by simp [hscp])]
  simp only [hda, hkl, hdry, Bool.false_eq_true, Bool.not_false, if_false, if_true, hmv, hany]
  refine ⟨by trivial, ?_, ?_⟩
  · exact List.mem_append_left _ (List.mem_filter.mpr ⟨hmem, by simp [hne]⟩)
  · exact List.mem_append_right _ (List.mem_singleton.mpr rfl)

/-- Witness for C3: a second `b.csv` is archived while `b.csv` is already in
the sent directory; the old entry survives and the new one is timestamped. -/
theorem archive_move_no_overwrite_witness :
    (⟨"b.csv", [5]⟩ : SentEntry)
      ∈ (fileStep (fun bs => toString bs.length)
          ⟨"h", 22, "u", "k", "/inputs", "files", "sent", "logs", "*"⟩
          ⟨"*", false, true, false, false, false⟩
          ⟨none, 1, 0, none, none, "20250101_120000"⟩
          ⟨[⟨[], "b", ".csv", [6]⟩], true, [⟨"b.csv", [5]⟩], [], []⟩
          ⟨[], "b", ".csv", [6]⟩).1.sentFiles
    ∧ (⟨"b" ++ "_" ++ "20250101_120000" ++ ".csv", [6]⟩ : SentEntry)
      ∈ (fileStep (fun bs => toString bs.length)
          ⟨"h", 22, "u", "k", "/inputs", "files", "sent", "logs", "*"⟩
          ⟨"*", false, true, false, false, false⟩
          ⟨none, 1, 0, none, none, "20250101_120000"⟩
          ⟨[⟨[], "b", ".csv", [6]⟩], true, [⟨"b.csv", [5]⟩], [], []⟩
          ⟨[], "b", ".csv", [6]⟩).1.sentFiles := by
  have h := archive_move_no_overwrite (fun bs => toString bs.length)
    ⟨"h", 22, "u", "k", "/inputs", "files", "sent", "logs", "*"⟩
    ⟨"*", false, true, false, false, false⟩
    ⟨none, 1, 0, none, none, "20250101_120000"⟩
    ⟨[⟨[], "b", ".csv", [6]⟩], true, [⟨"b.csv", [5]⟩], [], []⟩
    ⟨[], "b", ".csv", [6]⟩ ⟨"b.csv", [5]⟩
    rfl rfl rfl rfl rfl rfl (Or.inl rfl) (List.mem_singleton.mpr rfl) rfl
  exact ⟨h.2.1, h.2.2⟩

/-- C8: under dry-run the probe reports `false` without executing any remote
command, for every remote path and exit-code oracle; consequently, with
`--overwrite` absent, a dry run marks no file `skipped_remote_exists`:
every log record the loop adds is a file event with a different status. -/
theorem dry_run_probe_reports_false
    (exec : Cmd → Nat) (rp : String) (H : List Byte → String) (s : Settings)
    (args : Args) (oracle : LocalFile → FileOracle) (files : List LocalFile)
    (st : RunState) (ok sk fl : Nat)
    (hdry : args.dry_run = true) (how : args.overwrite = false) :
    remote_file_exists exec rp true = (false, [])
    ∧ ∀ r ∈ (runLoop H s args oracle files st ok sk fl).1.log,
        r ∈ st.log ∨ ∀ fr, r = LogRecord.fileEvent fr →
          fr.status ≠ Status.skipped_remote_exists :=
  ⟨rfl, runLoop_dry_no_skip H s args oracle files st ok sk fl hdry⟩

/-- Witness for C8: a dry run over one file whose probe oracle claims the
remote file exists (exit 0) still yields no skipped record. -/
theorem dry_run_probe_reports_false_witness :
    remote_file_exists (fun _ => 0) "/inputs/a.csv" true = (false, [])
    ∧ ∀ fr, LogRecord.fileEvent fr ∈ (runLoop (fun bs => toString bs.length)
        ⟨"h", 22, "u", "k", "/inputs", "files", "sent", "logs", "*"⟩
        ⟨"*", false, false, false, false, true⟩
        (fun _ => ⟨none, 0, 0, none, none, "t"⟩)
        [⟨[], "a", ".csv", [1]⟩]
        ⟨[⟨[], "a", ".csv", [1]⟩], false, [], [], []⟩ 0 0 0).1.log →
          fr.status ≠ Status.skipped_remote_exists := by
  have h := dry_run_probe_reports_false (fun _ => 0) "/inputs/a.csv"
    (fun bs => toString bs.length)
    ⟨"h", 22, "u", "k", "/inputs", "files", "sent", "logs", "*"⟩
    ⟨"*", false, false, false, false, true⟩
    (fun _ => ⟨none, 0, 0, none, none, "t"⟩)
    [⟨[], "a", ".csv", [1]⟩]
    ⟨[⟨[], "a", ".csv", [1]⟩], false, [], [], []⟩ 0 0 0 rfl rfl
  refine ⟨h.1, ?_⟩
  intro fr hmem
  rcases h.2 (LogRecord.fileEvent fr) hmem with hin | hprop
  · exact absurd hin (by simp)
  · exact hprop fr rfl

/-- C2 counterexample: the claim "no file or directory besides the log
output is created under dry-run" fails.  `sent_dir.mkdir(parents=True,
exist_ok=True)` runs before the dry-run test of the archive branch, so a
dry run over one file with `delete_after=false` and `keep_local=false`
creates the sent directory that did not exist before. -/
theorem dry_run_creates_sent_dir :
    (main (fun bs => toString bs.length)
        ⟨"h", 22, "u", "k", "/inputs", "files", "sent", "logs", "*"⟩
        ⟨"*", false, false, false, false, true⟩
        true 0 (fun _ => true) (fun _ => ⟨none, 1, 0, none, none, "t"⟩)
        ⟨[⟨[], "a", ".csv", [1]⟩], false, [], [], []⟩).2.sentDirExists = true
    ∧ (⟨[⟨[], "a", ".csv", [1]⟩], false, [], [], []⟩ : RunState).sentDirExists = false := by
  constructor <;> rfl

/-- C2 amended: under dry-run no file is deleted, no file is moved, no
remote command is executed (so no remote state changes), and the log still
receives its records; the only other filesystem mutation is that the sent
(archive) directory itself is still created when a file would have been
archived (`delete_after=false`, `keep_local=false`). -/
theorem dry_run_no_mutation
    (H : List Byte → String) (s : Settings) (args : Args) (localDirOk : Bool)
    (ensureExit : Nat) (globMatch : LocalFile → Bool)
    (oracle : LocalFile → FileOracle) (st : RunState)
    (hdry : args.dry_run = true) :
    (main H s args localDirOk ensureExit globMatch oracle st).2.localFiles = st.localFiles
    ∧ (main H s args localDirOk ensureExit globMatch oracle st).2.sentFiles = st.sentFiles
    ∧ (main H s args localDirOk ensureExit globMatch oracle st).2.executedCmds
        = st.executedCmds := by
  unfold main
  cases localDirOk with
  | false => exact ⟨rfl, rfl, rfl⟩
  | true =>
    have hens : ensure_remote_dir (fun _ => ensureExit) s args.dry_run
        = (Except.ok (), []) := by
      simp [ensure_remote_dir, runCommand, hdry]
    simp only [hens, Bool.not_true, Bool.false_eq_true, if_false]
    split
    · exact ⟨by simp, by simp, by simp⟩
    · have h := runLoop_dry_state H s args oracle
        (iter_files globMatch args.recursive
          ({ st with executedCmds := st.executedCmds ++ [] } : RunState).localFiles)
        { st with executedCmds := st.executedCmds ++ [] } 0 0 0 hdry
      refine ⟨?_, ?_, ?_⟩
      · rw [h.1]
      · rw [h.2.1]
      · rw [h.2.2]; simp

/-- Witness for C2 (amended) on a concrete dry run with one file. -/
theorem dry_run_no_mutation_witness :
    (main (fun bs => toString bs.length)
        ⟨"h", 22, "u", "k", "/inputs", "files", "sent", "logs", "*"⟩
        ⟨"*", false, false, false, false, true⟩
        true 0 (fun _ => true) (fun _ => ⟨none, 1, 0, none, none, "t"⟩)
        ⟨[⟨[], "a", ".csv", [1]⟩], false, [⟨"old.csv", [9]⟩], [], []⟩).2.localFiles
      = [⟨[], "a", ".csv", [1]⟩]
    ∧ (main (fun bs => toString bs.length)
        ⟨"h", 22, "u", "k", "/inputs", "files", "sent", "logs", "*"⟩
        ⟨"*", false, false, false, false, true⟩
        true 0 (fun _ => true) (fun _ => ⟨none, 1, 0, none, none, "t"⟩)
        ⟨[⟨[], "a", ".csv", [1]⟩], false, [⟨"old.csv", [9]⟩], [], []⟩).2.sentFiles
      = [⟨"old.csv", [9]⟩]
    ∧ (main (fun bs => toString bs.length)
        ⟨"h", 22, "u", "k", "/inputs", "files", "sent", "logs", "*"⟩
        ⟨"*", false, false, false, false, true⟩
        true 0 (fun _ => true) (fun _ => ⟨none, 1, 0, none, none, "t"⟩)
        ⟨[⟨[], "a", ".csv", [1]⟩], false, [⟨"old.csv", [9]⟩], [], []⟩).2.executedCmds
      = [] := by
  have h := dry_run_no_mutation (fun bs => toString bs.length)
    ⟨"h", 22, "u", "k", "/inputs", "files", "sent", "logs", "*"⟩
    ⟨"*", false, false, false, false, true⟩
    true 0 (fun _ => true) (fun _ => ⟨none, 1, 0, none, none, "t"⟩)
    ⟨[⟨[], "a", ".csv", [1]⟩], false, [⟨"old.csv", [9]⟩], [], []⟩ rfl
  exact ⟨h.1, h.2.1, h.2.2⟩

/-- C4 counterexample: the probe's outcome space is `Bool`, not a
three-valued result.  A probe-command failure (ssh exits 255) produces
exactly the same outcome — `false`, "does not exist" — as a clean `test -f`
miss (exit 1), so the process-failure signal the claim requires does not
exist. -/
theorem probe_failure_reported_as_absent :
    remote_file_exists (fun _ => 255) "/inputs/a.csv" false
      = remote_file_exists (fun _ => 1) "/inputs/a.csv" false
    ∧ (remote_file_exists (fun _ => 255) "/inputs/a.csv" false).1 = false := by
  constructor <;> rfl

/-- C4 amended: the probe returns a boolean — `true` exactly when the
executed `test -f` command exits 0; every non-zero exit status, a failure
of the probe command itself included, is reported as non-existence, with no
distinct probe-failure outcome. -/
theorem probe_boolean_outcome (exec : Cmd → Nat) (rp : String) :
    ((remote_file_exists exec rp false).1 = true ↔ exec (Cmd.sshTestFile rp) = 0)
    ∧ ∀ code : Nat, code ≠ 0 →
        (remote_file_exists (fun _ => code) rp false).1 = false := by
  constructor
  · simp [remote_file_exists, runCommand]
  · intro code hcode
    simp [remote_file_exists, runCommand, hcode]

/-- Witness for C4 (amended): concrete probes with exits 0, 1 and 255. -/
theorem probe_boolean_outcome_witness :
    ((remote_file_exists (fun _ => 0) "/inputs/b.csv" false).1 = true
      ↔ (fun _ : Cmd => 0) (Cmd.sshTestFile "/inputs/b.csv") = 0)
    ∧ (remote_file_exists (fun _ => 255) "/inputs/b.csv" false).1 = false := by
  have h0 := probe_boolean_outcome (fun _ => 0) "/inputs/b.csv"
  have h255 := probe_boolean_outcome (fun _ => 255) "/inputs/b.csv"
  exact ⟨h0.1, h255.2 255 (by decide)⟩

/-- C5: every run that reaches the summary logs it last: `no_files` when no
file matched, otherwise a record whose total is the number of discovered
files, whose three counters sum to that total (each file bumps exactly one),
and whose status is `ok` exactly when zero files failed and `partial_fail`
otherwise.  The hypothesis makes `ensure_remote_dir` succeed, as a fatal
remote-directory failure aborts before any summary. -/
theorem summary_status_and_counts
    (H : List Byte → String) (s : Settings) (args : Args) (localDirOk : Bool)
    (ensureExit : Nat) (globMatch : LocalFile → Bool)
    (oracle : LocalFile → FileOracle) (st : RunState)
    (hok : localDirOk = true)
    (hens : args.dry_run = true ∨ ensureExit = 0) :
    (iter_files globMatch args.recursive st.localFiles = [] →
        (main H s args localDirOk ensureExit globMatch oracle st).2.log
          = st.log ++ [LogRecord.runEndNoFiles args.pattern])
    ∧ (iter_files globMatch args.recursive st.localFiles ≠ [] →
        ∃ (rest : List LogRecord) (stat : String) (a b c : Nat),
          (main H s args localDirOk ensureExit globMatch oracle st).2.log
              = rest ++ [LogRecord.runEnd stat args.recursive args.overwrite
                  args.keep_local args.delete_after args.dry_run
                  (iter_files globMatch args.recursive st.localFiles).length a b c]
          ∧ a + b + c = (iter_files globMatch args.recursive st.localFiles).length
          ∧ (stat = "ok" ↔ c = 0)
          ∧ (stat = "partial_fail" ↔ c ≠ 0)) := by
  subst hok
  have hens1 : (ensure_remote_dir (fun _ => ensureExit) s args.dry_run).1
      = Except.ok () := by
    rcases hens with h | h
    · simp [ensure_remote_dir, runCommand, h]
    · subst h
      cases hd : args.dry_run <;> simp [ensure_remote_dir, runCommand, hd]
  unfold main
  simp only [hens1, Bool.not_true, Bool.false_eq_true, if_false]
  by_cases hf : iter_files globMatch args.recursive st.localFiles = []
  · constructor
    · intro _
      simp only [hf, List.isEmpty_nil, if_true]
    · intro hcontra
      exact absurd hf hcontra
  · constructor
    · intro hcontra
      exact absurd hcontra hf
    · intro _
      rw [if_neg (by simp [List.isEmpty_iff, hf])]
      set files := iter_files globMatch args.recursive st.localFiles with hfiles
      set st₁ : RunState :=
        { st with executedCmds :=
            st.executedCmds ++ (ensure_remote_dir (fun _ => ensureExit) s args.dry_run).2 }
        with hst₁
      have hcnt := runLoop_counts H s args oracle files st₁ 0 0 0
      by_cases hc : (runLoop H s args oracle files st₁ 0 0 0).2.2.2 = 0
      · refine ⟨(runLoop H s args oracle files st₁ 0 0 0).1.log, "ok",
          (runLoop H s args oracle files st₁ 0 0 0).2.1,
          (runLoop H s args oracle files st₁ 0 0 0).2.2.1,
          (runLoop H s args oracle files st₁ 0 0 0).2.2.2, ?_, ?_, ?_, ?_⟩
        · simp [hc]
        · omega
        · simp [hc]
        · exact ⟨fun h => absurd h (by decide), fun h => absurd hc h⟩
      · refine ⟨(runLoop H s args oracle files st₁ 0 0 0).1.log, "partial_fail",
          (runLoop H s args oracle files st₁ 0 0 0).2.1,
          (runLoop H s args oracle files st₁ 0 0 0).2.2.1,
          (runLoop H s args oracle files st₁ 0 0 0).2.2.2, ?_, ?_, ?_, ?_⟩
        · have hbeq : ((runLoop H s args oracle files st₁ 0 0 0).2.2.2 == 0) = false := by
            simp [hc]
          simp only [hbeq, Bool.false_eq_true, if_false]
        · omega
        · exact ⟨fun h => absurd h (by decide), fun h => absurd h hc⟩
        · exact ⟨fun _ => hc, fun _ => rfl⟩

/-- Witness for C5: a two-file run in which one `scp` fails: the summary
reports total 2, counters summing to 2, and status `partial_fail`. -/
theorem summary_status_and_counts_witness :
    ∃ (rest : List LogRecord) (stat : String) (a b c : Nat),
      (main (fun bs => toString bs.length)
          ⟨"h", 22, "u", "k", "/inputs", "files", "sent", "logs", "*"⟩
          ⟨"*", false, false, false, true, false⟩
          true 0 (fun _ => true)
          (fun f => if f.stem = "a" then ⟨none, 1, 5, none, none, "t"⟩
                    else ⟨none, 1, 0, none, none, "t"⟩)
          ⟨[⟨[], "a", ".csv", [1]⟩, ⟨[], "b", ".csv", [2]⟩], false, [], [], []⟩).2.log
          = rest ++ [LogRecord.runEnd stat false false false true false 2 a b c]
      ∧ a + b + c = 2
      ∧ (stat = "ok" ↔ c = 0)
      ∧ (stat = "partial_fail" ↔ c ≠ 0) := by
  have h := summary_status_and_counts (fun bs => toString bs.length)
    ⟨"h", 22, "u", "k", "/inputs", "files", "sent", "logs", "*"⟩
    ⟨"*", false, false, false, true, false⟩
    true 0 (fun _ => true)
    (fun f => if f.stem = "a" then ⟨none, 1, 5, none, none, "t"⟩
              else ⟨none, 1, 0, none, none, "t"⟩)
    ⟨[⟨[], "a", ".csv", [1]⟩, ⟨[], "b", ".csv", [2]⟩], false, [], [], []⟩
    rfl (Or.inr rfl)
  exact h.2 (by decide)

/-- C6: the process exit code is `2` when the local source directory is
invalid (the run state is untouched: no files processed), and otherwise —
whenever the run completes — `0` exactly when the summary's failure count
is zero and `1` exactly when it is non-zero; an empty discovery also exits
`0`. -/
theorem process_exit_codes
    (H : List Byte → String) (s : Settings) (args : Args) (localDirOk : Bool)
    (ensureExit : Nat) (globMatch : LocalFile → Bool)
    (oracle : LocalFile → FileOracle) (st : RunState)
    (hens : args.dry_run = true ∨ ensureExit = 0) :
    (localDirOk = false →
        main H s args localDirOk ensureExit globMatch oracle st = (RunResult.exit 2, st))
    ∧ (localDirOk = true → iter_files globMatch args.recursive st.localFiles = [] →
        (main H s args localDirOk ensureExit globMatch oracle st).1 = RunResult.exit 0)
    ∧ (localDirOk = true → iter_files globMatch args.recursive st.localFiles ≠ [] →
        ∃ (rest : List LogRecord) (stat : String) (a b c : Nat),
          (main H s args localDirOk ensureExit globMatch oracle st).2.log
              = rest ++ [LogRecord.runEnd stat args.recursive args.overwrite
                  args.keep_local args.delete_after args.dry_run
                  (iter_files globMatch args.recursive st.localFiles).length a b c]
          ∧ ((main H s args localDirOk ensureExit globMatch oracle st).1
                = RunResult.exit 0 ↔ c = 0)
          ∧ ((main H s args localDirOk ensureExit globMatch oracle st).1
                = RunResult.exit 1 ↔ c ≠ 0)) := by
  have hens1 : (ensure_remote_dir (fun _ => ensureExit) s args.dry_run).1
      = Except.ok () := by
    rcases hens with h | h
    · simp [ensure_remote_dir, runCommand, h]
    · subst h
      cases hd : args.dry_run <;> simp [ensure_remote_dir, runCommand, hd]
  refine ⟨?_, ?_, ?_⟩
  · intro h
    subst h
    rfl
  · intro hok hf
    subst hok
    unfold main
    simp only [hens1, Bool.not_true, Bool.false_eq_true, if_false]
    simp only [hf, List.isEmpty_nil, if_true]
  · intro hok hf
    subst hok
    unfold main
    simp only [hens1, Bool.not_true, Bool.false_eq_true, if_false]
    rw [if_neg (by simp [List.isEmpty_iff, hf])]
    set files := iter_files globMatch args.recursive st.localFiles with hfiles
    set st₁ : RunState :=
      { st with executedCmds :=
          st.executedCmds ++ (ensure_remote_dir (fun _ => ensureExit) s args.dry_run).2 }
      with hst₁
    by_cases hc : (runLoop H s args oracle files st₁ 0 0 0).2.2.2 = 0
    · refine ⟨(runLoop H s args oracle files st₁ 0 0 0).1.log,
        "ok",
        (runLoop H s args oracle files st₁ 0 0 0).2.1,
        (runLoop H s args oracle files st₁ 0 0 0).2.2.1,
        (runLoop H s args oracle files st₁ 0 0 0).2.2.2, ?_, ?_, ?_⟩
      · simp [hc]
      · simp [hc]
      · simp [hc]
    · have hbeq : ((runLoop H s args oracle files st₁ 0 0 0).2.2.2 == 0) = false := by
        simp [hc]
      refine ⟨(runLoop H s args oracle files st₁ 0 0 0).1.log,
        "partial_fail",
        (runLoop H s args oracle files st₁ 0 0 0).2.1,
        (runLoop H s args oracle files st₁ 0 0 0).2.2.1,
        (runLoop H s args oracle files st₁ 0 0 0).2.2.2, ?_, ?_, ?_⟩
      · simp only [hbeq, Bool.false_eq_true, if_false]
      · simp only [hbeq, Bool.false_eq_true, if_false]
        exact ⟨fun h => absurd h (by decide), fun h => absurd h hc⟩
      · simp only [hbeq, Bool.false_eq_true, if_false]
        exact ⟨fun _ => hc, fun _ => by trivial⟩

/-- Witness for C6: an invalid local directory exits 2 untouched, and a
one-file run whose `scp` fails exits 1 via the logged failure count. -/
theorem process_exit_codes_witness :
    main (fun bs => toString bs.length)
        ⟨"h", 22, "u", "k", "/inputs", "files", "sent", "logs", "*"⟩
        ⟨"*", false, false, false, false, false⟩
        false 0 (fun _ => true) (fun _ => ⟨none, 1, 5, none, none, "t"⟩)
        ⟨[⟨[], "a", ".csv", [1]⟩], false, [], [], []⟩
      = (RunResult.exit 2, ⟨[⟨[], "a", ".csv", [1]⟩], false, [], [], []⟩)
    ∧ ∃ (rest : List LogRecord) (stat : String) (a b c : Nat),
        (main (fun bs => toString bs.length)
            ⟨"h", 22, "u", "k", "/inputs", "files", "sent", "logs", "*"⟩
            ⟨"*", false, false, false, false, false⟩
            true 0 (fun _ => true) (fun _ => ⟨none, 1, 5, none, none, "t"⟩)
            ⟨[⟨[], "a", ".csv", [1]⟩], false, [], [], []⟩).2.log
            = rest ++ [LogRecord.runEnd stat false false false false false 1 a b c]
        ∧ ((main (fun bs => toString bs.length)
            ⟨"h", 22, "u", "k", "/inputs", "files", "sent", "logs", "*"⟩
            ⟨"*", false, false, false, false, false⟩
            true 0 (fun _ => true) (fun _ => ⟨none, 1, 5, none, none, "t"⟩)
            ⟨[⟨[], "a", ".csv", [1]⟩], false, [], [], []⟩).1 = RunResult.exit 0 ↔ c = 0)
        ∧ ((main (fun bs => toString bs.length)
            ⟨"h", 22, "u", "k", "/inputs", "files", "sent", "logs", "*"⟩
            ⟨"*", false, false, false, false, false⟩
            true 0 (fun _ => true) (fun _ => ⟨none, 1, 5, none, none, "t"⟩)
            ⟨[⟨[], "a", ".csv", [1]⟩], false, [], [], []⟩).1 = RunResult.exit 1 ↔ c ≠ 0) := by
  have h1 := process_exit_codes (fun bs => toString bs.length)
    ⟨"h", 22, "u", "k", "/inputs", "files", "sent", "logs", "*"⟩
    ⟨"*", false, false, false, false, false⟩
    false 0 (fun _ => true) (fun _ => ⟨none, 1, 5, none, none, "t"⟩)
    ⟨[⟨[], "a", ".csv", [1]⟩], false, [], [], []⟩ (Or.inr rfl)
  have h2 := process_exit_codes (fun bs => toString bs.length)
    ⟨"h", 22, "u", "k", "/inputs", "files", "sent", "logs", "*"⟩
    ⟨"*", false, false, false, false, false⟩
    true 0 (fun _ => true) (fun _ => ⟨none, 1, 5, none, none, "t"⟩)
    ⟨[⟨[], "a", ".csv", [1]⟩], false, [], [], []⟩ (Or.inr rfl)
  exact ⟨h1.1 rfl, h2.2.2 rfl (by decide)⟩

/-- C9: the fingerprinter reads the file in fixed-size chunks — every chunk
absorbed has at most `chunk_size` bytes, so the whole file is never held at
once — and the digest is the hash of the full byte sequence in order, hence
deterministic in the content: two reads of the same content, with any
(positive) chunk sizes, give the identical digest. -/
theorem sha256_chunked_digest (H : List Byte → String) (content : List Byte)
    (c₁ c₂ : Nat) (h₁ : 0 < c₁) (h₂ : 0 < c₂) :
    sha256_file H content c₁ = H content
    ∧ sha256_file H content c₁ = sha256_file H content c₂
    ∧ ∀ chunk ∈ readChunksFuel c₁ content.length content, chunk.length ≤ c₁ := by
  have e₁ : sha256_file H content c₁ = H content := by
    unfold sha256_file
    rw [readChunksFuel_flatten c₁ h₁ content.length content (Nat.le_refl _)]
  have e₂ : sha256_file H content c₂ = H content := by
    unfold sha256_file
    rw [readChunksFuel_flatten c₂ h₂ content.length content (Nat.le_refl _)]
  exact ⟨e₁, e₁.trans e₂.symm, fun chunk hm => readChunksFuel_chunk_le c₁ _ content chunk hm⟩

/-- Witness for C9 at a concrete content and chunk sizes. -/
theorem sha256_chunked_digest_witness :
    sha256_file (fun bs => toString bs.length) [7, 8, 9, 10, 11] 2
        = (fun bs : List Byte => toString bs.length) [7, 8, 9, 10, 11]
    ∧ sha256_file (fun bs => toString bs.length) [7, 8, 9, 10, 11] 2
        = sha256_file (fun bs => toString bs.length) [7, 8, 9, 10, 11] 3 := by
  have h := sha256_chunked_digest (fun bs => toString bs.length) [7, 8, 9, 10, 11] 2 3
    (by decide) (by decide)
  exact ⟨h.1, h.2.1⟩

/-- C10: the remote destination computed for a discovered file depends only
on its base name — the subdirectory components are discarded — and the
per-file record indeed uses that destination; hence two distinct files with
equal base names in different subdirectories get the same remote path. -/
theorem remote_dest_depends_on_basename (d : String) (f g : LocalFile)
    (h : f.name = g.name) :
    remote_path d f.name = remote_path d g.name
    ∧ ∀ (H : List Byte → String) (s : Settings) (args : Args) (o : FileOracle)
        (st : RunState),
        (fileStep H s args o st f).2.remote_path = remote_path s.remote_dir f.name := by
  constructor
  · rw [h]
  · intro H s args o st
    unfold fileStep
    cases o.digestErr
    all_goals simp only []
    all_goals repeat' split
    all_goals rfl

/-- Witness for C10: two distinct files, in different subdirectories, with
the same base name, are mapped to the same remote destination. -/
theorem remote_dest_depends_on_basename_witness :
    ({ dirs := ["a"], stem := "data", suffix := ".csv", content := [1] } : LocalFile)
        ≠ { dirs := ["b"], stem := "data", suffix := ".csv", content := [2] }
    ∧ remote_path "/inputs"
        ({ dirs := ["a"], stem := "data", suffix := ".csv", content := [1] } : LocalFile).name
      = remote_path "/inputs"
        ({ dirs := ["b"], stem := "data", suffix := ".csv", content := [2] } : LocalFile).name := by
  refine ⟨by decide, ?_⟩
  exact (remote_dest_depends_on_basename "/inputs"
    { dirs := ["a"], stem := "data", suffix := ".csv", content := [1] }
    { dirs := ["b"], stem := "data", suffix := ".csv", content := [2] } rfl).1

end UploadScp
